import Mathlib

/-!
# Shallow embedding of the forge-v2 demonstration programs

The repository consists of five self-contained demonstration programs
(`tsan_example.cpp`, `ubsan_example.cpp`, `asan_example.cpp`,
`msan_example.cpp`, `semgrep_example.cpp`).  Each is embedded below close
to the source text: straight-line `main` bodies become Lean definitions
producing an event trace together with the returned exit status, and the
one concurrent program (the data race demo) becomes an interleaving step
relation on an explicit machine state.
-/

namespace ForgeV2

/-! ## data-race-demo (`tsan_example.cpp`)

`int counter = 0;` is shared by two threads, each running
`void increment() { for (int i = 0; i < 100000; ++i) counter++; }` with no
synchronization.  The unsynchronized `counter++` is a plain load followed
by a store of the loaded value plus one, so an execution is an arbitrary
interleaving of the two threads' load and store steps.  All values that
ever reach `counter` stay below `200000 < INT_MAX`, so `Nat` models the
C++ `int` faithfully here. -/

/-- Loop bound of `increment`: `for (int i = 0; i < 100000; ++i)`. -/
def threadIters : Nat := 100000

/-- Where a worker thread stands inside one `counter++`: about to load the
shared counter, or holding a loaded value and about to store it plus one. -/
inductive Phase
  | beforeLoad
  | beforeStore
  deriving DecidableEq, Repr

/-- Private state of one worker thread: loop iterations still to complete
(`rem`), and the temporary register (`tmp`) holding the last loaded value. -/
structure Worker where
  rem : Nat
  tmp : Nat
  ph : Phase
  deriving DecidableEq, Repr

/-- Shared-memory machine state: the global `counter` and the two workers. -/
structure RaceState where
  counter : Nat
  w1 : Worker
  w2 : Worker
  deriving DecidableEq, Repr

/-- A freshly spawned worker: the whole loop ahead of it, register clear. -/
def Worker.spawn : Worker := ⟨threadIters, 0, .beforeLoad⟩

/-- Program start: `int counter = 0;` and the two spawned threads. -/
def raceStart : RaceState := ⟨0, Worker.spawn, Worker.spawn⟩

/-- One scheduler step: either thread, when it still has iterations left,
may load the shared counter into its register, or (after a load) store its
register plus one back and finish the iteration. -/
inductive RStep : RaceState → RaceState → Prop
  | load1 (c n t : Nat) (w : Worker) :
      RStep ⟨c, ⟨n + 1, t, .beforeLoad⟩, w⟩ ⟨c, ⟨n + 1, c, .beforeStore⟩, w⟩
  | store1 (c n t : Nat) (w : Worker) :
      RStep ⟨c, ⟨n + 1, t, .beforeStore⟩, w⟩ ⟨t + 1, ⟨n, t, .beforeLoad⟩, w⟩
  | load2 (c n t : Nat) (w : Worker) :
      RStep ⟨c, w, ⟨n + 1, t, .beforeLoad⟩⟩ ⟨c, w, ⟨n + 1, c, .beforeStore⟩⟩
  | store2 (c n t : Nat) (w : Worker) :
      RStep ⟨c, w, ⟨n + 1, t, .beforeStore⟩⟩ ⟨t + 1, w, ⟨n, t, .beforeLoad⟩⟩

/-- Reachability along any interleaving of the two threads. -/
def RaceReaches : RaceState → RaceState → Prop :=
  Relation.ReflTransGen RStep

/-- Both joins have returned: each thread completed all its iterations. -/
def RaceFinal (s : RaceState) : Prop :=
  s.w1.rem = 0 ∧ s.w2.rem = 0

/-- How many stores have hit the shared counter so far. -/
def storesDone (s : RaceState) : Nat :=
  (threadIters - s.w1.rem) + (threadIters - s.w2.rem)

/-- Inductive invariant of the race machine: loop counters never exceed the
bound, the counter never exceeds the number of stores performed, it is
positive as soon as one store happened, and a register loaded but not yet
stored is bounded by the stores performed at (hence after) its load. -/
structure RaceInv (s : RaceState) : Prop where
  rem1_le : s.w1.rem ≤ threadIters
  rem2_le : s.w2.rem ≤ threadIters
  counter_le : s.counter ≤ storesDone s
  counter_pos : 1 ≤ storesDone s → 1 ≤ s.counter
  tmp1_le : s.w1.ph = .beforeStore → s.w1.tmp ≤ storesDone s
  tmp2_le : s.w2.ph = .beforeStore → s.w2.tmp ≤ storesDone s

theorem raceInv_start : RaceInv raceStart := by
  refine ⟨?_, ?_, ?_, ?_, ?_, ?_⟩ <;>
    simp [raceStart, Worker.spawn, storesDone, threadIters]

theorem raceInv_step {s s2 : RaceState} (h : RStep s s2) (hi : RaceInv s) :
    RaceInv s2 := by
  obtain ⟨r1, r2, cle, cpos, t1, t2⟩ := hi
  cases h with
  | load1 c n t w =>
      exact ⟨r1, r2, cle, cpos, fun _ => cle, t2⟩
  | store1 c n t w =>
      have ht : t ≤ (threadIters - (n + 1)) + (threadIters - w.rem) := t1 rfl
      have hr1 : n + 1 ≤ threadIters := r1
      have hr2 : w.rem ≤ threadIters := r2
      refine ⟨?_, hr2, ?_, ?_, ?_, ?_⟩
      · show n ≤ threadIters
        omega
      · show t + 1 ≤ (threadIters - n) + (threadIters - w.rem)
        omega
      · intro _
        show 1 ≤ t + 1
        omega
      · intro hph
        exact Phase.noConfusion hph
      · intro hw
        have hwt : w.tmp ≤ (threadIters - (n + 1)) + (threadIters - w.rem) := t2 hw
        show w.tmp ≤ (threadIters - n) + (threadIters - w.rem)
        omega
  | load2 c n t w =>
      exact ⟨r1, r2, cle, cpos, t1, fun _ => cle⟩
  | store2 c n t w =>
      have ht : t ≤ (threadIters - w.rem) + (threadIters - (n + 1)) := t2 rfl
      have hr2 : n + 1 ≤ threadIters := r2
      have hr1 : w.rem ≤ threadIters := r1
      refine ⟨hr1, ?_, ?_, ?_, ?_, ?_⟩
      · show n ≤ threadIters
        omega
      · show t + 1 ≤ (threadIters - w.rem) + (threadIters - n)
        omega
      · intro _
        show 1 ≤ t + 1
        omega
      · intro hw
        have hwt : w.tmp ≤ (threadIters - w.rem) + (threadIters - (n + 1)) := t1 hw
        show w.tmp ≤ (threadIters - w.rem) + (threadIters - n)
        omega
      · intro hph
        exact Phase.noConfusion hph

theorem raceInv_reachable {s : RaceState} (h : RaceReaches raceStart s) :
    RaceInv s := by
  induction h with
  | refl => exact raceInv_start
  | tail _ hstep ih => exact raceInv_step hstep ih

/-- Running thread 1 alone to completion from the top of its loop adds its
remaining iteration count to the shared counter. -/
theorem run1_alone (n : Nat) : ∀ (c t : Nat) (w : Worker), ∃ t2 : Nat,
    RaceReaches ⟨c, ⟨n, t, .beforeLoad⟩, w⟩ ⟨c + n, ⟨0, t2, .beforeLoad⟩, w⟩ := by
  induction n with
  | zero => exact fun c t w => ⟨t, by simpa using Relation.ReflTransGen.refl⟩
  | succ n ih =>
      intro c t w
      obtain ⟨t2, hrun⟩ := ih (c + 1) c w
      refine ⟨t2, Relation.ReflTransGen.head (RStep.load1 c n t w)
        (Relation.ReflTransGen.head (RStep.store1 c n c w) ?_)⟩
      have harith : c + 1 + n = c + (n + 1) := by omega
      rw [harith] at hrun
      exact hrun

/-- Running thread 2 alone to completion from the top of its loop adds its
remaining iteration count to the shared counter. -/
theorem run2_alone (n : Nat) : ∀ (c t : Nat) (w : Worker), ∃ t2 : Nat,
    RaceReaches ⟨c, w, ⟨n, t, .beforeLoad⟩⟩ ⟨c + n, w, ⟨0, t2, .beforeLoad⟩⟩ := by
  induction n with
  | zero => exact fun c t w => ⟨t, by simpa using Relation.ReflTransGen.refl⟩
  | succ n ih =>
      intro c t w
      obtain ⟨t2, hrun⟩ := ih (c + 1) c w
      refine ⟨t2, Relation.ReflTransGen.head (RStep.load2 c n t w)
        (Relation.ReflTransGen.head (RStep.store2 c n c w) ?_)⟩
      have harith : c + 1 + n = c + (n + 1) := by omega
      rw [harith] at hrun
      exact hrun

/-- A sequential schedule: thread 1 runs to completion, then thread 2;
the counter ends at exactly 2 × 100000. -/
theorem race_seq_schedule : ∃ s : RaceState,
    RaceReaches raceStart s ∧ RaceFinal s ∧ s.counter = 200000 := by
  obtain ⟨t2, h1⟩ := run1_alone threadIters 0 0 Worker.spawn
  obtain ⟨t2b, h2⟩ := run2_alone threadIters (0 + threadIters) 0 ⟨0, t2, .beforeLoad⟩
  refine ⟨⟨0 + threadIters + threadIters, ⟨0, t2, .beforeLoad⟩, ⟨0, t2b, .beforeLoad⟩⟩,
    ?_, ⟨rfl, rfl⟩, by simp [threadIters]⟩
  exact Relation.ReflTransGen.trans h1 h2

/-- A lost-update schedule: thread 1 loads 0, thread 2 then runs to
completion, thread 1's stale store overwrites the counter with 1, and
thread 1 finishes its remaining iterations; the counter ends at 100000. -/
theorem race_lost_update_schedule : ∃ s : RaceState,
    RaceReaches raceStart s ∧ RaceFinal s ∧ s.counter < 200000 := by
  obtain ⟨t2, h2⟩ := run2_alone threadIters 0 0 ⟨threadIters, 0, .beforeStore⟩
  obtain ⟨t1, h1⟩ := run1_alone (threadIters - 1) 1 0 ⟨0, t2, .beforeLoad⟩
  refine ⟨⟨1 + (threadIters - 1), ⟨0, t1, .beforeLoad⟩, ⟨0, t2, .beforeLoad⟩⟩,
    ?_, ⟨rfl, rfl⟩, by simp [threadIters]⟩
  have hload : RStep raceStart ⟨0, ⟨threadIters, 0, .beforeStore⟩, Worker.spawn⟩ := by
    have := RStep.load1 0 (threadIters - 1) 0 Worker.spawn
    simpa [threadIters, Worker.spawn] using this
  have hstore : RStep ⟨0 + threadIters, ⟨threadIters, 0, .beforeStore⟩, ⟨0, t2, .beforeLoad⟩⟩
      ⟨0 + 1, ⟨threadIters - 1, 0, .beforeLoad⟩, ⟨0, t2, .beforeLoad⟩⟩ := by
    have := RStep.store1 (0 + threadIters) (threadIters - 1) 0 ⟨0, t2, .beforeLoad⟩
    simpa [threadIters] using this
  refine Relation.ReflTransGen.head hload ?_
  refine Relation.ReflTransGen.trans h2 (Relation.ReflTransGen.head hstore ?_)
  simpa using h1

/-- Body of `increment` as a sequential function: the loop
`for (int i = 0; i < 100000; ++i) counter++;` with `n` iterations left,
acting on the counter alone (no other thread interleaves). -/
def incrementLoop : Nat → Nat → Nat
  | 0, counter => counter
  | n + 1, counter => incrementLoop n (counter + 1)

/-- One sequential (non-interleaved) call to `increment`. -/
def increment (counter : Nat) : Nat := incrementLoop threadIters counter

theorem incrementLoop_adds (n : Nat) : ∀ c : Nat, incrementLoop n c = c + n := by
  induction n with
  | zero => intro c; rfl
  | succ n ih =>
      intro c
      show incrementLoop n (c + 1) = c + (n + 1)
      rw [ih (c + 1)]
      omega

theorem increment_eq (c : Nat) : increment c = c + threadIters :=
  incrementLoop_adds threadIters c

/-- State of the race machine when each `counter++` executes atomically:
the shared counter and the two loops' remaining iteration counts. -/
structure AtomicState where
  counter : Nat
  rem1 : Nat
  rem2 : Nat
  deriving DecidableEq, Repr

/-- One atomic step: either thread with iterations left bumps the counter
in a single indivisible operation. -/
inductive AStep : AtomicState → AtomicState → Prop
  | inc1 (c n m : Nat) : AStep ⟨c, n + 1, m⟩ ⟨c + 1, n, m⟩
  | inc2 (c n m : Nat) : AStep ⟨c, n, m + 1⟩ ⟨c + 1, n, m⟩

/-- Start of the atomic-increment machine: counter 0, both loops ahead. -/
def atomicStart : AtomicState := ⟨0, threadIters, threadIters⟩

/-- Reachability of the atomic-increment machine. -/
def AtomicReaches : AtomicState → AtomicState → Prop :=
  Relation.ReflTransGen AStep

/-- Both atomic loops have completed. -/
def AtomicFinal (s : AtomicState) : Prop := s.rem1 = 0 ∧ s.rem2 = 0

theorem atomic_step_sum {s s2 : AtomicState} (h : AStep s s2) :
    s2.counter + s2.rem1 + s2.rem2 = s.counter + s.rem1 + s.rem2 := by
  cases h with
  | inc1 c n m =>
      show c + 1 + n + m = c + (n + 1) + m
      omega
  | inc2 c n m =>
      show c + 1 + n + m = c + n + (m + 1)
      omega

theorem atomic_reachable_sum {s : AtomicState} (h : AtomicReaches atomicStart s) :
    s.counter + s.rem1 + s.rem2 = 2 * threadIters := by
  induction h with
  | refl =>
      show 0 + threadIters + threadIters = 2 * threadIters
      omega
  | tail _ hstep ih =>
      rw [atomic_step_sum hstep]
      exact ih

/-- Main of `tsan_example.cpp` after both joins, as a function of the raced
final counter: the banner and narrative lines it prints, and `return 0;`. -/
def tsanMain (finalCounter : Nat) : List String × Int :=
  (["ThreadSanitizer Example: Data Race\n",
    "==================================\n\n",
    "Starting two threads that increment a shared counter...\n",
    "Initial counter: 0\n",
    "Final counter: " ++ toString finalCounter ++ "\n",
    "Expected: 200000, but may be less due to race condition\n",
    "TSan will report the data race!\n"], 0)

/-- Claim C1: along every interleaving of the two worker threads, the final
counter (the value printed after both joins) satisfies
`0 < counter ≤ 200000`; some interleaving attains exactly 200000 and some
interleaving ends strictly below it, so equality is not guaranteed. -/
theorem data_race_final_counter_bounds :
    (∀ s : RaceState, RaceReaches raceStart s → RaceFinal s →
        0 < s.counter ∧ s.counter ≤ 200000)
    ∧ (∃ s : RaceState, RaceReaches raceStart s ∧ RaceFinal s ∧ s.counter = 200000)
    ∧ (∃ s : RaceState, RaceReaches raceStart s ∧ RaceFinal s ∧ s.counter < 200000) := by
  refine ⟨?_, race_seq_schedule, race_lost_update_schedule⟩
  intro s hreach hfin
  obtain ⟨r1, r2, cle, cpos, _, _⟩ := raceInv_reachable hreach
  have hdone : storesDone s = 200000 := by
    simp only [storesDone, hfin.1, hfin.2, threadIters]
  constructor
  · have := cpos (by omega)
    omega
  · omega

/-- Claim C7: each worker thread runs `increment`, whose loop performs
exactly 100000 increments of the shared counter; in a sequential embedding
a call starting from counter value `c` terminates with `c + 100000`. -/
theorem increment_adds_100000 (c : Nat) : increment c = c + 100000 :=
  increment_eq c

/-- Claim C9: if each `counter++` is executed atomically the race
disappears: the two sequentialized calls to `increment` starting from 0
end at exactly 200000 = 2 × 100000, and every complete schedule of the
atomic-increment machine ends with counter exactly 200000. -/
theorem atomic_increments_yield_200000 :
    increment (increment 0) = 200000
    ∧ (∀ s : AtomicState, AtomicReaches atomicStart s → AtomicFinal s →
        s.counter = 200000) := by
  constructor
  · rw [increment_eq, increment_eq]
    simp [threadIters]
  · intro s hreach hfin
    have hsum := atomic_reachable_sum hreach
    rw [hfin.1, hfin.2] at hsum
    simpa [threadIters] using hsum

/-! ## undefined-behavior-demo (`ubsan_example.cpp`)

Every potentially undefined operation the program performs goes through a
checked primitive mirroring the C++ core-language rule; each such
operation appends one event carrying the class of undefined behavior it
exhibits, if any.  Values a program would observe after undefined
behavior are modelled as the two's-complement wraparound the common
hardware produces (respectively 0 for the out-of-range shift and read);
no claim depends on them. -/

/-- Largest value of a 32-bit signed `int`. -/
def intMax : Int := 2147483647

/-- Smallest value of a 32-bit signed `int`. -/
def intMin : Int := -2147483648

/-- Bit width of `int`. -/
def intBits : Nat := 32

/-- Two's-complement wraparound into the range of a 32-bit signed `int`. -/
def wrap32 (z : Int) : Int := (z + 2147483648) % 4294967296 - 2147483648

/-- Classes of undefined behavior the checker distinguishes. -/
inductive UBClass
  | signedOverflow
  | shiftTooLarge
  | indexOutOfBounds
  | divisionByZero
  | nullDereference
  deriving DecidableEq, Repr

/-- Kinds of checked operations an execution can perform. -/
inductive CheckedOp
  | increment
  | leftShift
  | arrayRead
  | division
  | pointerDeref
  deriving DecidableEq, Repr

/-- One performed operation together with the undefined behavior, if any,
that performing it exhibited. -/
structure UbEvent where
  op : CheckedOp
  ub : Option UBClass
  deriving DecidableEq, Repr

/-- Increment `x++` of a signed `int`: undefined exactly when `x` holds
`INT_MAX`. -/
def checkedInc (x : Int) : Int × Option UBClass :=
  if x = intMax then (wrap32 (x + 1), some .signedOverflow) else (x + 1, none)

/-- Left shift `v << amt` of a signed 32-bit `int`: undefined when the
shift amount is negative or at least the bit width (the demo's case with
amount 100), or when the operand is negative or the result does not fit. -/
def checkedShl (v amt : Int) : Int × Option UBClass :=
  if amt < 0 ∨ (intBits : Int) ≤ amt then (0, some .shiftTooLarge)
  else if v < 0 ∨ intMax < v * 2 ^ amt.toNat then
    (wrap32 (v * 2 ^ amt.toNat), some .signedOverflow)
  else (v * 2 ^ amt.toNat, none)

/-- Array read `a[idx]` of an `int[size]`: undefined (out of bounds)
unless `0 ≤ idx < size`. -/
def checkedIndex (size : Nat) (a : List Int) (idx : Int) : Int × Option UBClass :=
  if 0 ≤ idx ∧ idx < (size : Int) then (a.getD idx.toNat 0, none)
  else (0, some .indexOutOfBounds)

/-- Division `a / b` of signed `int`: undefined when `b` is zero or when
the quotient `INT_MIN / -1` overflows; C++ division truncates. -/
def checkedDiv (a b : Int) : Int × Option UBClass :=
  if b = 0 then (0, some .divisionByZero)
  else if a = intMin ∧ b = -1 then (wrap32 (-a), some .signedOverflow)
  else (a.tdiv b, none)

/-- Observable outcome of `main` of `ubsan_example.cpp`: the ordered trace
of checked operations performed, the final values of the locals, whether
the pointer is null, and the returned exit status. -/
structure UbsanResult where
  events : List UbEvent
  x : Int
  a : Int
  b : Int
  shifted : Int
  val : Int
  ptrIsNull : Bool
  retVal : Int
  deriving DecidableEq, Repr

/-- Straight-line transcription of `main` of `ubsan_example.cpp`.  The
division `a / b` and the store `*ptr = 42` are commented out in the
source, so no division and no dereference is performed. -/
def ubsanMain : UbsanResult :=
  -- int x = INT_MAX;
  let x0 : Int := intMax
  -- x++;
  let r1 := checkedInc x0
  -- int a = 10; int b = 0;  (the division is commented out)
  let a : Int := 10
  let b : Int := 0
  -- int value = 1; int shift = 100; int shifted = value << shift;
  let value : Int := 1
  let shiftAmt : Int := 100
  let r2 := checkedShl value shiftAmt
  -- int arr[5] = {1, 2, 3, 4, 5}; int index = 10; int val = arr[index];
  let arr : List Int := [1, 2, 3, 4, 5]
  let index : Int := 10
  let r3 := checkedIndex 5 arr index
  -- int* ptr = nullptr;  (the store through ptr is commented out)
  let ptr : Option Int := none
  { events := [⟨.increment, r1.2⟩, ⟨.leftShift, r2.2⟩, ⟨.arrayRead, r3.2⟩],
    x := r1.1, a := a, b := b, shifted := r2.1, val := r3.1,
    ptrIsNull := ptr.isNone, retVal := 0 }

/-- Claim C2: main of the undefined-behavior demo performs exactly three
undefined operations, in this order: the increment of an `int` holding
`INT_MAX` (signed overflow), a left shift by 100 ≥ 32 bits, and the read
of index 10 of a 5-element array; no other performed operation is
undefined. -/
theorem ubsan_exactly_three_findings :
    ubsanMain.events = [⟨.increment, some .signedOverflow⟩,
      ⟨.leftShift, some .shiftTooLarge⟩, ⟨.arrayRead, some .indexOutOfBounds⟩]
    ∧ (ubsanMain.events.filterMap UbEvent.ub).length = 3 := by
  decide

/-- Claim C3: the zero divisor `b = 0` and the null pointer are both
defined in main, yet no execution performs a division or dereferences a
pointer (the hazardous statements are commented out in the source): the
trace holds no division and no dereference operation, hence no
division-by-zero and no null-dereference finding. -/
theorem ubsan_division_and_deref_inert :
    ubsanMain.b = 0 ∧ ubsanMain.ptrIsNull = true
    ∧ ubsanMain.events.all
        (fun e => e.op != CheckedOp.division && e.op != CheckedOp.pointerDeref) = true
    ∧ ubsanMain.events.all
        (fun e => e.ub != some UBClass.divisionByZero
          && e.ub != some UBClass.nullDereference) = true := by
  decide

/-! ## overflow-demo (`asan_example.cpp`)

The stack array is bounds-checked and the heap cell carries a liveness
flag; each memory access appends one event recording whether it hit the
error branch of the checked embedding. -/

/-- One memory access of the overflow demo. -/
inductive AsanEvent
  | stackWrite (idx size : Nat) (oob : Bool)
  | stackRead (idx size : Nat) (oob : Bool)
  | heapAlloc
  | heapRead (afterFree : Bool)
  | heapFree
  deriving DecidableEq, Repr

/-- Whether an access hit the error branch of the bounds-checked /
liveness-checked embedding. -/
def AsanEvent.isViolation : AsanEvent → Bool
  | .stackWrite _ _ oob => oob
  | .stackRead _ _ oob => oob
  | .heapRead afterFree => afterFree
  | _ => false

/-- Observable outcome of `main` of `asan_example.cpp`. -/
structure AsanResult where
  events : List AsanEvent
  retVal : Int
  deriving DecidableEq, Repr

/-- Straight-line transcription of `main` of `asan_example.cpp`. -/
def asanMain : AsanResult :=
  -- int arr[5] = {1, 2, 3, 4, 5};
  let arrSize : Nat := 5
  -- arr[10] = 99;
  let e1 := AsanEvent.stackWrite 10 arrSize (decide (arrSize ≤ 10))
  -- std::cout << "Value at arr[10]: " << arr[10]
  let e2 := AsanEvent.stackRead 10 arrSize (decide (arrSize ≤ 10))
  -- int* ptr = new int(42);
  let e3 := AsanEvent.heapAlloc
  let ptrAlive := true
  -- std::cout << "Allocated: " << *ptr
  let e4 := AsanEvent.heapRead (!ptrAlive)
  -- delete ptr;
  let e5 := AsanEvent.heapFree
  let ptrAlive2 := false
  -- std::cout << "After delete, trying to access: " << *ptr
  let e6 := AsanEvent.heapRead (!ptrAlive2)
  { events := [e1, e2, e3, e4, e5, e6], retVal := 0 }

/-- Claim C4: main of the overflow demo first writes index 10 of the
5-element stack array (out of bounds), then reads that same location, then
allocates a heap int, reads it while alive, frees it, and reads it again
after the free; the error branch of the checked embedding is hit at least
twice (the out-of-bounds write and the use-after-free read). -/
theorem asan_oob_then_use_after_free :
    asanMain.events = [.stackWrite 10 5 true, .stackRead 10 5 true,
      .heapAlloc, .heapRead false, .heapFree, .heapRead true]
    ∧ 2 ≤ (asanMain.events.filter AsanEvent.isViolation).length := by
  decide

/-! ## uninitialized-read-demo (`msan_example.cpp`)

Each `int` cell is an `Option Int`: `none` is a cell no write has touched.
`int x;` and `int arr[5];` leave their cells unwritten.  `int arr2[5] =
{1, 2}` is C++ aggregate initialization ([dcl.init.aggr]): the three
elements without an explicit initializer are value-initialized to 0, so
all five cells of `arr2` are initialized memory — the source comments
"Only first 2 elements initialized" and "MSan will catch this!" (on the
`arr2[2]` read) contradict the language rule the code executes under. -/

/-- One read performed by the uninitialized-read demo, with the variable it
reads and whether the cell was initialized. -/
inductive MsanEvent
  | readX (initd : Bool)
  | readArrElem (idx : Nat) (initd : Bool)
  | readArr2Elem (idx : Nat) (initd : Bool)
  deriving DecidableEq, Repr

/-- Whether the event is a read of memory no prior operation has written. -/
def MsanEvent.uninitRead : MsanEvent → Bool
  | .readX i => !i
  | .readArrElem _ i => !i
  | .readArr2Elem _ i => !i

/-- Reading a tracked cell: the value (unspecified, modelled 0, for an
unwritten cell) and whether the cell was initialized. -/
def readCell (c : Option Int) : Int × Bool :=
  match c with
  | some v => (v, true)
  | none => (0, false)

/-- Observable outcome of `main` of `msan_example.cpp`. -/
structure MsanResult where
  events : List MsanEvent
  retVal : Int
  deriving DecidableEq, Repr

/-- Straight-line transcription of `main` of `msan_example.cpp`. -/
def msanMain : MsanResult :=
  -- int x;  (never initialized)
  let x : Option Int := none
  -- if (x > 0)  — reads x
  let rx := readCell x
  let e1 := MsanEvent.readX rx.2
  -- whichever branch is taken prints x, reading it once more
  let rx2 := readCell x
  let e2 := MsanEvent.readX rx2.2
  -- int arr[5];  (never initialized)
  let arr : List (Option Int) := List.replicate 5 none
  -- std::cout << "arr[0] = " << arr[0]
  let r0 := readCell (arr.getD 0 none)
  let e3 := MsanEvent.readArrElem 0 r0.2
  -- int arr2[5] = {1, 2};  (elements 2..4 value-initialized to 0)
  let arr2 : List (Option Int) := [some 1, some 2, some 0, some 0, some 0]
  -- std::cout << "arr2[0] = " << arr2[0]
  let r20 := readCell (arr2.getD 0 none)
  let e4 := MsanEvent.readArr2Elem 0 r20.2
  -- std::cout << "arr2[2] = " << arr2[2]
  let r22 := readCell (arr2.getD 2 none)
  let e5 := MsanEvent.readArr2Elem 2 r22.2
  { events := [e1, e2, e3, e4, e5], retVal := 0 }

/-- Claim C5, evaluated on the code: main of the uninitialized-read demo
does perform at least two reads of never-written memory (the scalar `x`
in the branch condition and again in the branch body, and element 0 of
`arr`), but its read of `arr2[2]` is of initialized memory: aggregate
initialization zero-initializes the elements of `int arr2[5] = {1, 2}`
beyond the two listed, contrary to the claim and to the source comments. -/
theorem msan_arr2_elem2_initialized :
    msanMain.events = [.readX false, .readX false, .readArrElem 0 false,
      .readArr2Elem 0 true, .readArr2Elem 2 true]
    ∧ 2 ≤ (msanMain.events.filter MsanEvent.uninitRead).length
    ∧ MsanEvent.readArr2Elem 2 true ∈ msanMain.events := by
  decide

/-! ## static-analysis-pattern-demo (`semgrep_example.cpp`)

The pattern routines act on an explicit program state: the process-wide
`global_counter`, the standard output produced so far, and a trace of
memory and pointer operations.  Only the routines the claims are about,
and those that touch this state, are embedded; `main` calls none of them. -/

/-- A memory or pointer operation a pattern routine can perform. -/
inductive SemEvent
  | derefWrite
  | heapAlloc
  | heapFree
  deriving DecidableEq, Repr

/-- Program state visible to the pattern routines. -/
structure SemState where
  global_counter : Int
  output : List String
  events : List SemEvent
  deriving DecidableEq, Repr

/-- Routine `semgrep_weak_crypto`: its body is only comments (a weak-hash
placeholder), so no statement executes. -/
def semgrep_weak_crypto (s : SemState) : SemState := s

/-- Routine `semgrep_race_condition`: `global_counter++;`. -/
def semgrep_race_condition (s : SemState) : SemState :=
  { s with global_counter := s.global_counter + 1 }

/-- Routine `semgrep_null_pointer`: `int* ptr = nullptr;`, then a
dereference guarded by `if (ptr != nullptr)`; the unguarded dereference is
commented out in the source. -/
def semgrep_null_pointer (s : SemState) : SemState :=
  let ptr : Option Int := none
  if ptr ≠ none then { s with events := s.events ++ [SemEvent.derefWrite] } else s

/-- Routine `semgrep_memory_leak`: `new int[100]` with no matching
delete on any path. -/
def semgrep_memory_leak (s : SemState) : SemState :=
  { s with events := s.events ++ [SemEvent.heapAlloc] }

/-- Routine `semgrep_use_after_free`: allocate then free; the dereference
after the free is commented out in the source. -/
def semgrep_use_after_free (s : SemState) : SemState :=
  { s with events := s.events ++ [SemEvent.heapAlloc, SemEvent.heapFree] }

/-- Routine `semgrep_hardcoded_secret`: prints the hardcoded API key. -/
def semgrep_hardcoded_secret (s : SemState) : SemState :=
  { s with output := s.output ++ ["API Key: sk-1234567890abcdef\n"] }

/-- Main of `semgrep_example.cpp`: prints the banner and the summary list
(calling none of the pattern routines) and returns 0. -/
def semgrepMain (s : SemState) : SemState × Int :=
  ({ s with output := s.output ++
      ["Semgrep Example: Security and Bug Detection\n",
       "===========================================\n\n",
       "This file contains code patterns that Semgrep can detect.\n",
       "Run \'cpx semgrep\' to scan for issues.\n\n",
       "Common Semgrep detections:\n",
       "- Command injection vulnerabilities\n",
       "- Buffer overflows\n",
       "- Dangerous function usage (strcpy, gets, etc.)\n",
       "- Hardcoded secrets and credentials\n",
       "- SQL injection patterns\n",
       "- Weak cryptography\n",
       "- Race conditions\n",
       "- Null pointer dereferences\n",
       "- Memory leaks\n",
       "- Use after free\n"] }, 0)

/-- Claim C6: `semgrep_weak_crypto` is a no-op: it performs no operation
and leaves every piece of program state — the global counter, the produced
output and the operation trace — exactly unchanged. -/
theorem semgrep_weak_crypto_noop (s : SemState) :
    (semgrep_weak_crypto s).global_counter = s.global_counter
    ∧ (semgrep_weak_crypto s).output = s.output
    ∧ (semgrep_weak_crypto s).events = s.events
    ∧ semgrep_weak_crypto s = s :=
  ⟨rfl, rfl, rfl, rfl⟩

/-- Claim C10: `semgrep_null_pointer` never dereferences a pointer: `ptr`
is assigned `nullptr`, the guard `ptr != nullptr` is false on every
execution, so the guarded branch is unreachable, no dereference event is
emitted and the routine changes no state. -/
theorem semgrep_null_pointer_no_deref (s : SemState) :
    (semgrep_null_pointer s).events = s.events ∧ semgrep_null_pointer s = s := by
  constructor <;> rfl

/-- Claim C8: every one of the five programs returns exit status 0 on
normal completion — for the race demo independently of the raced final
counter, and for the pattern demo from any starting state. -/
theorem all_mains_return_zero :
    (∀ c : Nat, (tsanMain c).2 = 0)
    ∧ ubsanMain.retVal = 0
    ∧ asanMain.retVal = 0
    ∧ msanMain.retVal = 0
    ∧ (∀ s : SemState, (semgrepMain s).2 = 0) :=
  ⟨fun _ => rfl, rfl, rfl, rfl, fun _ => rfl⟩

end ForgeV2
